import Mathlib

/-!
Shallow embedding of the openMotor internal-ballistics core
(`motorlib/motor.py` and `motorlib/geometry.py`).

Numeric values are modelled as exact rationals.  Python float operations
that have no exact rational counterpart — `**` with a fractional exponent,
`math.pi`, NaN detection, and the nozzle's isentropic exit-pressure root
find — are abstracted into an environment `Env` of uninterpreted
functions, so every statement below is parametric in the floating-point
behaviour of those operations.  Integer powers (`** 2`) are modelled by
the exact ring power.

Collaborating modules that are not among the sources (`grain`, `nozzle`,
`propellant`, `simulationResult`, `simAlert` and the property
collections) are modelled from the spec where their definitions note it;
`motor.py` itself is translated line by line.

Python exceptions that the embedding does model (the `grains[-1]` access
on an empty list and the attribute access on a missing propellant) are
represented by the `SimOutcome.fault` constructor; exhaustion of the
step budget that replaces the unbounded `while` loop is
`SimOutcome.fuelOut`.
-/

namespace OpenMotor

/-- Modelled from the spec: the alert severities of the `simAlert`
module (not among the sources); spec section 3 lists ERROR and WARNING. -/
inductive SimAlertLevel where
  | ERROR
  | WARNING
  deriving DecidableEq

/-- Modelled from the spec: the alert categories of the `simAlert`
module (not among the sources); spec section 3 lists geometry and
constraint. -/
inductive SimAlertType where
  | CONSTRAINT
  | GEOMETRY
  deriving DecidableEq

/-- Modelled from the spec: an alert record (level, type, description,
location), from the `simAlert` module (not among the sources). -/
structure SimAlert where
  level : SimAlertLevel
  type : SimAlertType
  description : String
  location : String
  deriving DecidableEq

/-- A property map of a property collection, as serialized by
`getProperties` / consumed by `setProperties`. -/
abbrev PropMap := List (String × ℚ)

/-- Modelled from the spec: the polymorphic grain interface of spec
section 4.1 (the `grain` modules are not among the sources).  One grain
variant is a record of pure functions of the grain's property map.
`simulationSetup` only populates per-run caches (spec 4.1), so it has no
observable effect in this functional model and is omitted. -/
structure GrainBehavior where
  getSurfaceAreaAtRegression : PropMap → ℚ → ℚ
  getVolumeAtRegression : PropMap → ℚ → ℚ
  getWebLeft : PropMap → ℚ → ℚ
  isWebLeft : PropMap → ℚ → ℚ → Bool
  getPortArea : PropMap → ℚ → Option ℚ
  /-- arguments: props, inlet mass flow, dt, regression, dr, density. -/
  getPeakMassFlux : PropMap → ℚ → ℚ → ℚ → ℚ → ℚ → ℚ
  getGeometryErrors : PropMap → List SimAlert
  /-- whether this variant is the `endBurningGrain` class. -/
  isEndBurning : Bool

/-- Modelled from the spec: the nozzle's property collection (throat
diameter, exit diameter, efficiency; `nozzle` module not among the
sources). -/
structure NozzleProps where
  throat : ℚ
  exitDia : ℚ
  efficiency : ℚ
  deriving DecidableEq

/-- The abstract environment: the grain-type registry `grainTypes`
(spec section 9), Python float `**` (`pow`), `np.isnan`, the nozzle's
`getExitPressure` solve, the nozzle's geometry validation, and the value
of `math.pi`.  All claims are parametric in these. -/
structure Env where
  grainTypes : String → GrainBehavior
  pow : ℚ → ℚ → ℚ
  isnan : ℚ → Bool
  getExitPressure : NozzleProps → ℚ → ℚ → ℚ
  nozzleGeometryErrors : NozzleProps → List SimAlert
  piV : ℚ

/-- A grain instance: its variant tag (`geomName`) plus its property
map.  Behaviour is obtained through the registry `Env.grainTypes`,
mirroring Python's dispatch on the instance's class. -/
structure Grain where
  tag : String
  props : PropMap
  deriving DecidableEq

/-- Modelled from the spec: the propellant property collection (spec
section 3; `propellant` module not among the sources). -/
structure Propellant where
  k : ℚ
  t : ℚ
  m : ℚ
  density : ℚ
  a : ℚ
  n : ℚ
  deriving DecidableEq

/-- `MotorConfig` of `motor.py` lines 14-26 (values only; the unit/bound
presentation metadata of `floatProperty` is out of scope per spec
section 1). -/
structure MotorConfig where
  maxPressure : ℚ
  maxMassFlux : ℚ
  minPortThroat : ℚ
  burnoutWebThres : ℚ
  burnoutThrustThres : ℚ
  timestep : ℚ
  ambPressure : ℚ
  mapDim : ℚ
  deriving DecidableEq

/-- The `motor` class data (`motor.py` lines 28-36). -/
structure Motor where
  grains : List Grain
  propellant : Option Propellant
  nozzle : NozzleProps
  config : MotorConfig
  deriving DecidableEq

/-- One entry of the `grains` list of a motor definition record
(`motor.py` line 45). -/
structure GrainEntry where
  type : String
  properties : PropMap
  deriving DecidableEq

/-- The motor definition record produced by `getDict` (`motor.py`
lines 38-47). -/
structure MotorDict where
  nozzle : NozzleProps
  propellant : Option Propellant
  grains : List GrainEntry
  config : MotorConfig
  deriving DecidableEq

/-- `motor.getDict` (`motor.py` lines 38-47).  The collaborators'
`getProperties` are modelled from the spec as returning the stored
property data itself. -/
def getDict (m : Motor) : MotorDict :=
  { nozzle := m.nozzle
    propellant := m.propellant
    grains := m.grains.map (fun g => { type := g.tag, properties := g.props })
    config := m.config }

/-- `motor.applyDict` (`motor.py` lines 49-59).  Each grain is rebuilt by
constructing the registry's variant for its type tag and applying the
stored properties; `setProperties` is modelled from the spec as replacing
the stored property data. -/
def applyDict (d : MotorDict) : Motor :=
  { grains := d.grains.map (fun e => { tag := e.type, props := e.properties })
    propellant := d.propellant
    nozzle := d.nozzle
    config := d.config }

/-- `geometry.circleArea` (`geometry.py` line 3), with `math.pi` passed
explicitly as `piV`. -/
def circleArea (piV d : ℚ) : ℚ :=
  ((d / 2) ^ (2 : ℕ)) * piV

/-- Modelled from the spec: `nozzle.getThroatArea` computes the throat
area from the throat diameter via the circle-area formula (spec
section 4.2; `nozzle` module not among the sources). -/
def getThroatArea (env : Env) (nz : NozzleProps) : ℚ :=
  circleArea env.piV nz.throat

/-- Modelled from the spec: `nozzle.getExitArea` computes the exit area
from the exit diameter via the circle-area formula (spec section 4.2). -/
def getExitArea (env : Env) (nz : NozzleProps) : ℚ :=
  circleArea env.piV nz.exitDia

/-- Modelled from the spec: the result of a run — seven append-only
time-series channels, the alert list and the success flag
(`simulationResult` module not among the sources; spec section 3). -/
structure SimulationResult where
  time : List ℚ
  kn : List ℚ
  pressure : List ℚ
  force : List ℚ
  mass : List (List ℚ)
  massFlow : List (List ℚ)
  massFlux : List (List ℚ)
  alerts : List SimAlert
  success : Bool
  deriving DecidableEq

/-- Outcome of `runSimulation` in the embedding: a returned result, a
modelled Python exception (`fault`), or exhaustion of the step budget
that replaces the unbounded `while` loop (`fuelOut`). -/
inductive SimOutcome where
  | ok (res : SimulationResult)
  | fault
  | fuelOut
  deriving DecidableEq

/-- The result carried by an `ok` outcome, or an empty result. -/
def SimOutcome.resD : SimOutcome → SimulationResult
  | .ok r => r
  | .fault => ⟨[], [], [], [], [], [], [], [], false⟩
  | .fuelOut => ⟨[], [], [], [], [], [], [], [], false⟩

/-- Modelled from the spec: a channel's running maximum (`getMax` of the
`simulationResult` module).  A base of `0` agrees with the maximum on
every reachable channel, whose entries are nonnegative. -/
def chanMax (l : List ℚ) : ℚ :=
  l.foldr max 0

/-- Python's `max` over a nonempty list (empty list mapped to 0). -/
def listMax : List ℚ → ℚ
  | [] => 0
  | x :: xs => xs.foldl max x

/-- Modelled from the spec: `getAlertsByLevel` of the `simulationResult`
module — the alerts of one severity, in order. -/
def alertsByLevel (l : List SimAlert) (lvl : SimAlertLevel) : List SimAlert :=
  l.filter (fun a => a.level == lvl)

/-- The behaviour record of a grain instance. -/
def beh (env : Env) (g : Grain) : GrainBehavior :=
  env.grainTypes g.tag

/-- `motor.calcKN` (`motor.py` lines 61-64): the burning surface area —
each grain's surface area times the 0/1 indicator of `isWebLeft` —
summed over the grains zipped with the regression vector, divided by the
throat area. -/
def calcKN (env : Env) (m : Motor) (r : List ℚ) (burnoutWebThres : ℚ) : ℚ :=
  let surfArea := ((m.grains.zip r).map (fun gr =>
    (beh env gr.1).getSurfaceAreaAtRegression gr.1.props gr.2 *
      (if (beh env gr.1).isWebLeft gr.1.props gr.2 burnoutWebThres then 1 else 0))).sum
  let nozz := getThroatArea env m.nozzle
  surfArea / nozz

/-- Spec-side KN, following the spec's words for comparison with
`calcKN`: the sum of surface areas over exactly those grains whose
`isWebLeft` holds past the threshold, divided by the throat area
(spec section 4.3). -/
def specKN (env : Env) (m : Motor) (r : List ℚ) (burnoutWebThres : ℚ) : ℚ :=
  (((m.grains.zip r).filter (fun gr =>
      (beh env gr.1).isWebLeft gr.1.props gr.2 burnoutWebThres)).map (fun gr =>
    (beh env gr.1).getSurfaceAreaAtRegression gr.1.props gr.2)).sum /
    getThroatArea env m.nozzle

/-- `motor.calcIdealPressure` (`motor.py` lines 66-78).  The propellant
accessors crash in Python when no propellant is set; every call site in
`runSimulation` is behind the propellant validation, and the unreachable
`none` branch returns 0 here. -/
def calcIdealPressure (env : Env) (m : Motor) (r : List ℚ) (kn : Option ℚ)
    (burnoutWebThres : ℚ) : ℚ :=
  match m.propellant with
  | none => 0
  | some prop =>
    let k := prop.k
    let t := prop.t
    let mm := prop.m
    let p := prop.density
    let a := prop.a
    let n := prop.n
    let knv := match kn with
      | none => calcKN env m r burnoutWebThres
      | some v => v
    let num := knv * p * a
    let exponent := 1 / (1 - n)
    let denom := env.pow ((k / ((8314 / mm) * t)) *
      (env.pow (2 / (k + 1)) ((k + 1) / (k - 1)))) 0.5
    env.pow (num / denom) exponent

/-- Spec-side normalization term, following the spec's words for
comparison with the denominator of `calcIdealPressure`:
`D = sqrt((k/((8314/m)·t))·(2/(k+1))^((k+1)/(k-1)))`, where the square
root is the float power with exponent one half (spec section 4.3). -/
def specD (env : Env) (prop : Propellant) : ℚ :=
  env.pow ((prop.k / ((8314 / prop.m) * prop.t)) *
    (env.pow (2 / (prop.k + 1)) ((prop.k + 1) / (prop.k - 1)))) (1 / 2)

/-- The chamber pressure used by `calcForce` (`motor.py` lines 86-89):
the supplied case pressure, or the ideal pressure when none is given. -/
def resolveChamberPressure (env : Env) (m : Motor) (r : List ℚ)
    (casePressure : Option ℚ) (burnoutWebThres : ℚ) : ℚ :=
  match casePressure with
  | none => calcIdealPressure env m r none burnoutWebThres
  | some p => p

/-- `motor.calcForce` (`motor.py` lines 80-106): zero at exactly zero
chamber pressure, otherwise the ideal-nozzle thrust with the NaN /
negative clamp of lines 103-104.  As in `calcIdealPressure`, the
unreachable missing-propellant branch returns 0. -/
def calcForce (env : Env) (m : Motor) (r : List ℚ) (casePressure : Option ℚ)
    (ambientPressure burnoutWebThres : ℚ) : ℚ :=
  match m.propellant with
  | none => 0
  | some prop =>
    let k := prop.k
    let t_a := getThroatArea env m.nozzle
    let e_a := getExitArea env m.nozzle
    let p_a := ambientPressure
    let p_c := resolveChamberPressure env m r casePressure burnoutWebThres
    if p_c = 0 then 0
    else
      let p_e := env.getExitPressure m.nozzle k p_c
      let t1 := (2 * k ^ (2 : ℕ)) / (k - 1)
      let t2 := env.pow (2 / (k + 1)) ((k + 1) / (k - 1))
      let t3 := 1 - env.pow (p_e / p_c) ((k - 1) / k)
      let sr := env.pow (t1 * t2 * t3) 0.5
      let f := m.nozzle.efficiency * t_a * p_c * sr + (p_e - p_a) * e_a
      if env.isnan f || decide (f < 0) then 0 else f

/-- The empty-grain-list ERROR alert (`motor.py` line 118). -/
def noGrainAlert : SimAlert :=
  ⟨.ERROR, .CONSTRAINT, "Motor must have at least one propellant grain", "Motor"⟩

/-- The misplaced-end-burner ERROR alert (`motor.py` line 121). -/
def endBurnerAlert (gid : ℕ) : SimAlert :=
  ⟨.ERROR, .CONSTRAINT, "End burning grains must be the forward-most grain in the motor",
    "Grain " ++ toString (gid + 1)⟩

/-- The missing-propellant ERROR alert (`motor.py` line 130). -/
def noPropAlert : SimAlert :=
  ⟨.ERROR, .CONSTRAINT, "Motor must have a propellant set", "Motor"⟩

/-- The port/throat WARNING alert (`motor.py` lines 173-174).  The
Python description interpolates the rounded ratio; the decimal
formatting is abstracted to a fixed description, which no claim
inspects. -/
def portWarnAlert : SimAlert :=
  ⟨.WARNING, .CONSTRAINT, "Initial port to throat ratio was less than the minimum allowed", "N/A"⟩

/-- The peak-mass-flux WARNING alert (`motor.py` lines 215-216). -/
def warnFluxAlert : SimAlert :=
  ⟨.WARNING, .CONSTRAINT, "Peak mass flux exceeded configured limit", "Motor"⟩

/-- The max-pressure WARNING alert (`motor.py` lines 220-221). -/
def warnPressureAlert : SimAlert :=
  ⟨.WARNING, .CONSTRAINT, "Max pressure exceeded configured limit", "Motor"⟩

/-- The alerts collected by the validation phase of `runSimulation`
(`motor.py` lines 116-131), in order: the empty-grain-list check, per
grain the end-burner-position check and its geometry errors (with the
location rewritten to the grain's 1-based index), the nozzle's geometry
errors, and the missing-propellant check. -/
def validationAlerts (env : Env) (m : Motor) : List SimAlert :=
  (if m.grains.isEmpty then [noGrainAlert] else []) ++
  (m.grains.enum.map (fun e =>
    (if (beh env e.2).isEndBurning && !(e.1 == 0) then [endBurnerAlert e.1] else []) ++
    ((beh env e.2).getGeometryErrors e.2.props).map
      (fun a => { a with location := "Grain " ++ toString (e.1 + 1) }))).flatten ++
  env.nozzleGeometryErrors m.nozzle ++
  (if m.propellant.isNone then [noPropAlert] else [])

/-- The result returned on validation failure (`motor.py` lines
134-135): empty channels, the validation alerts, `success` left false. -/
def rejectedResult (env : Env) (m : Motor) : SimulationResult :=
  ⟨[], [], [], [], [], [], [], validationAlerts env m, false⟩

/-- The numbers pulled from the config and the propellant before the
loop (`motor.py` lines 109-112 and 138-140). -/
structure BurnCtx where
  ambPressure : ℚ
  burnoutWebThres : ℚ
  burnoutThrustThres : ℚ
  ts : ℚ
  density : ℚ
  ballA : ℚ
  ballN : ℚ
  deriving DecidableEq

/-- Builds the `BurnCtx` from the motor's config and propellant. -/
def mkCtx (m : Motor) (prop : Propellant) : BurnCtx :=
  ⟨m.config.ambPressure, m.config.burnoutWebThres, m.config.burnoutThrustThres,
    m.config.timestep, prop.density, prop.a, prop.n⟩

/-- `perGrainReg = [0 for grain in self.grains]` (`motor.py` line 147);
also the zero per-grain rows of lines 155-156. -/
def zeroRegs (m : Motor) : List ℚ :=
  m.grains.map (fun _ => 0)

/-- The seed per-grain mass row `[grain.getVolumeAtRegression(0) *
density for grain in self.grains]` (`motor.py` lines 154 and 163). -/
def initialMassRow (env : Env) (m : Motor) (density : ℚ) : List ℚ :=
  m.grains.map (fun g => (beh env g).getVolumeAtRegression g.props 0 * density)

/-- The result after the two seed samples of `motor.py` lines 150-165:
the ignition-off sample at t = 0 and the ignition sample at t = ts, with
the validation alerts (all non-ERROR at this point) carried over. -/
def seededResult (env : Env) (m : Motor) (prop : Propellant) : SimulationResult :=
  let c := mkCtx m prop
  { time := [0, c.ts]
    kn := [0, calcKN env m (zeroRegs m) c.burnoutWebThres]
    pressure := [0, calcIdealPressure env m (zeroRegs m) none c.burnoutWebThres]
    force := [0, calcForce env m (zeroRegs m) none c.ambPressure c.burnoutWebThres]
    mass := [initialMassRow env m c.density, initialMassRow env m c.density]
    massFlow := [zeroRegs m, zeroRegs m]
    massFlux := [zeroRegs m, zeroRegs m]
    alerts := validationAlerts env m
    success := false }

/-- The port/throat ratio check on the aft grain (`motor.py` lines
167-174): when the aft grain exposes a port area, a ratio below the
configured minimum appends the WARNING. -/
def portWarned (env : Env) (m : Motor) (aft : Grain) (res : SimulationResult) :
    SimulationResult :=
  match (beh env aft).getPortArea aft.props 0 with
  | none => res
  | some aftPort =>
    if aftPort / circleArea env.piV m.nozzle.throat < m.config.minPortThroat then
      { res with alerts := res.alerts ++ [portWarnAlert] }
    else res

/-- The per-grain rows built by one regression sweep (`motor.py` lines
180-182) together with the updated regression vector. -/
structure SweepOut where
  mass : List ℚ
  flow : List ℚ
  flux : List ℚ
  regs : List ℚ
  deriving DecidableEq

/-- The forward-to-aft regression sweep of `motor.py` lines 179-190,
with the mass-flow accumulator `mf` threaded through the ordered grain
list.  `rs` is `perGrainReg` and `ms` the last sample of the `mass`
channel; the Python code indexes both by `gid`, which equals this
zip-style recursion because both always have the grain list's length.
For a burning grain (web above the threshold): the regression increment
from the last pressure sample `pL`, the mass flux from the accumulator
before this grain's own contribution, the recorded mass from the volume
at the current (pre-increment) regression, the accumulator update by
`(oldMass - newMass)/ts`, and last the regression increment.  A spent
grain keeps rows 0 and records the accumulator unchanged. -/
def burnSweep (env : Env) (ts ballA ballN burnoutWebThres density pL : ℚ) :
    List Grain → List ℚ → List ℚ → ℚ → SweepOut
  | [], _, _, _ => ⟨[], [], [], []⟩
  | g :: gs, rs, ms, mf =>
    let r := rs.headD 0
    let mL := ms.headD 0
    if (beh env g).getWebLeft g.props r > burnoutWebThres then
      let reg := ts * ballA * env.pow pL ballN
      let flux := (beh env g).getPeakMassFlux g.props mf ts r reg density
      let mass := (beh env g).getVolumeAtRegression g.props r * density
      let mf' := mf + (mL - mass) / ts
      let rest := burnSweep env ts ballA ballN burnoutWebThres density pL gs rs.tail ms.tail mf'
      ⟨mass :: rest.mass, mf' :: rest.flow, flux :: rest.flux, (r + reg) :: rest.regs⟩
    else
      let rest := burnSweep env ts ballA ballN burnoutWebThres density pL gs rs.tail ms.tail mf
      ⟨0 :: rest.mass, mf :: rest.flow, 0 :: rest.flux, r :: rest.regs⟩

/-- The loop state: the accumulating result and `perGrainReg`. -/
structure LoopState where
  res : SimulationResult
  regs : List ℚ
  deriving DecidableEq

/-- One body of the `while` loop without the callback check
(`motor.py` lines 178-205): the regression sweep, the three per-grain
row appends, then KN, pressure (with the freshly appended KN as the
override), force (with the freshly appended pressure as the case
pressure) and time. -/
def stepOnce (env : Env) (m : Motor) (c : BurnCtx) (st : LoopState) : LoopState :=
  let sw := burnSweep env c.ts c.ballA c.ballN c.burnoutWebThres c.density
    (st.res.pressure.getLastD 0) m.grains st.regs (st.res.mass.getLastD []) 0
  let res1 := { st.res with
    mass := st.res.mass ++ [sw.mass]
    massFlow := st.res.massFlow ++ [sw.flow]
    massFlux := st.res.massFlux ++ [sw.flux] }
  let res2 := { res1 with kn := res1.kn ++ [calcKN env m sw.regs c.burnoutWebThres] }
  let res3 := { res2 with pressure := res2.pressure ++
    [calcIdealPressure env m sw.regs (some (res2.kn.getLastD 0)) c.burnoutWebThres] }
  let res4 := { res3 with force := res3.force ++
    [calcForce env m sw.regs (some (res3.pressure.getLastD 0)) c.ambPressure c.burnoutWebThres] }
  let res5 := { res4 with time := res4.time ++ [res4.time.getLastD 0 + c.ts] }
  ⟨res5, sw.regs⟩

/-- The normalized progress reported to the callback (`motor.py` line
208): one minus the largest remaining web fraction over the grains. -/
def progressOf (env : Env) (m : Motor) (st : LoopState) : ℚ :=
  listMax ((m.grains.zip st.regs).map (fun gr =>
    (beh env gr.1).getWebLeft gr.1.props gr.2 / (beh env gr.1).getWebLeft gr.1.props 0))

/-- The loop-continuation test of `motor.py` line 177: the last force
sample strictly exceeds `burnoutThrustThres * 0.01` times the force
channel's running maximum. -/
abbrev burnGuard (c : BurnCtx) (res : SimulationResult) : Prop :=
  res.force.getLastD 0 > c.burnoutThrustThres * 0.01 * chanMax res.force

/-- The post-burnout finalization (`motor.py` lines 212-224): `success`
set true, then the peak-mass-flux and max-pressure WARNING checks, whose
peaks are modelled from the spec as the running channel maxima. -/
def finalize (m : Motor) (res : SimulationResult) : SimulationResult :=
  { res with
    success := true
    alerts := res.alerts ++
      (if chanMax (res.massFlux.map chanMax) > m.config.maxMassFlux then [warnFluxAlert] else []) ++
      (if chanMax res.pressure > m.config.maxPressure then [warnPressureAlert] else []) }

/-- The `while` loop of `motor.py` lines 177-210 with an explicit step
budget `fuel` in place of unbounded iteration, and `cnt` counting the
callback invocations so far.  The Python callback is an arbitrary
(possibly stateful) callable, modelled as a pure function of the
invocation index and the progress value.  A truthy callback return
exits with the partial result; a failed guard finalizes. -/
def simLoop (env : Env) (m : Motor) (c : BurnCtx) (cb : Option (ℕ → ℚ → Bool)) :
    ℕ → ℕ → LoopState → SimOutcome
  | 0, _, _ => .fuelOut
  | fuel + 1, cnt, st =>
    if burnGuard c st.res then
      let st' := stepOnce env m c st
      match cb with
      | none => simLoop env m c cb fuel cnt st'
      | some f =>
        if f cnt (1 - progressOf env m st') then .ok st'.res
        else simLoop env m c cb fuel (cnt + 1) st'
    else .ok (finalize m st.res)

/-- The value of `simLoop` on positive fuel when the guard holds: the
continuation after one loop body. -/
def loopStepResult (env : Env) (m : Motor) (c : BurnCtx) (cb : Option (ℕ → ℚ → Bool))
    (fuel cnt : ℕ) (st : LoopState) : SimOutcome :=
  let st' := stepOnce env m c st
  match cb with
  | none => simLoop env m c cb fuel cnt st'
  | some f =>
    if f cnt (1 - progressOf env m st') then .ok st'.res
    else simLoop env m c cb fuel (cnt + 1) st'

/-- `motor.runSimulation` (`motor.py` lines 108-224): validation with
early return on any ERROR alert, the seed samples, the port/throat
check, and the timestep loop.  The `grains[-1]` access on an empty list
and the propellant attribute access would raise in Python and are
modelled as `SimOutcome.fault`. -/
def runSimulation (env : Env) (m : Motor) (cb : Option (ℕ → ℚ → Bool)) (fuel : ℕ) :
    SimOutcome :=
  if 0 < (alertsByLevel (validationAlerts env m) .ERROR).length then
    .ok (rejectedResult env m)
  else
    match m.propellant with
    | none => .fault
    | some prop =>
      match m.grains.getLast? with
      | none => .fault
      | some aft =>
        simLoop env m (mkCtx m prop) cb fuel 0
          ⟨portWarned env m aft (seededResult env m prop), zeroRegs m⟩

/-! Concrete instantiations of the abstract environment, used to
evaluate the theorems below on closed inputs. -/

/-- A grain variant whose queries are constants: unit surface area and
volume, web `1 - r`. -/
def zeroBehavior : GrainBehavior :=
  { getSurfaceAreaAtRegression := fun _ _ => 1
    getVolumeAtRegression := fun _ _ => 1
    getWebLeft := fun _ r => 1 - r
    isWebLeft := fun _ r th => decide (1 - r > th)
    getPortArea := fun _ _ => none
    getPeakMassFlux := fun _ mf _ _ _ _ => mf
    getGeometryErrors := fun _ => []
    isEndBurning := false }

/-- An environment whose float power is constantly zero, so the seed
force sample is zero and the loop exits immediately. -/
def zeroEnv : Env :=
  { grainTypes := fun _ => zeroBehavior
    pow := fun _ _ => 0
    isnan := fun _ => false
    getExitPressure := fun _ _ _ => 0
    nozzleGeometryErrors := fun _ => []
    piV := 3 }

/-- A small test propellant (k 2, t 1, m 1, density 1, a 1, n 0). -/
def testProp : Propellant := ⟨2, 1, 1, 1, 1, 0⟩

/-- A small test nozzle (throat 1, exit 2, efficiency 1). -/
def testNozzle : NozzleProps := ⟨1, 2, 1⟩

/-- A small test config (limits 100, min port/throat 2, web threshold
1/100, thrust threshold 1 percent, timestep 1, ambient 0). -/
def testConfig : MotorConfig := ⟨100, 100, 2, 1 / 100, 1, 1, 0, 250⟩

/-- A one-grain motor that burns out immediately under `zeroEnv`. -/
def testMotor : Motor := ⟨[⟨"tube", []⟩], some testProp, testNozzle, testConfig⟩

/-- A motor with no grains but a propellant set. -/
def motorE : Motor := ⟨[], some testProp, testNozzle, testConfig⟩

/-- A motor with no grains and no propellant. -/
def motorNoProp : Motor := ⟨[], none, testNozzle, testConfig⟩

/-- A grain variant that always reports web left and exposes a port. -/
def posBehavior : GrainBehavior :=
  { getSurfaceAreaAtRegression := fun _ _ => 1
    getVolumeAtRegression := fun _ _ => 1
    getWebLeft := fun _ _ => 1
    isWebLeft := fun _ _ _ => true
    getPortArea := fun _ _ => some 1
    getPeakMassFlux := fun _ mf _ _ _ _ => mf
    getGeometryErrors := fun _ => []
    isEndBurning := false }

/-- An environment whose float power is constantly one, keeping the
force channel positive so the loop keeps running until cancelled. -/
def posEnv : Env :=
  { grainTypes := fun _ => posBehavior
    pow := fun _ _ => 1
    isnan := fun _ => false
    getExitPressure := fun _ _ _ => 0
    nozzleGeometryErrors := fun _ => []
    piV := 3 }

/-- A one-grain motor that under `posEnv` triggers the port/throat
WARNING and never reaches natural burnout. -/
def motorP : Motor := ⟨[⟨"bates", []⟩], some testProp, testNozzle, testConfig⟩

/-- A grain whose volume strictly decreases with regression
(volume `2 - r`, web `5 - r`): the probe for the mass bookkeeping of the
regression sweep. -/
def behC1 : GrainBehavior :=
  { getSurfaceAreaAtRegression := fun _ _ => 1
    getVolumeAtRegression := fun _ r => 2 - r
    getWebLeft := fun _ r => 5 - r
    isWebLeft := fun _ r th => decide (5 - r > th)
    getPortArea := fun _ _ => none
    getPeakMassFlux := fun _ mf _ _ _ _ => mf
    getGeometryErrors := fun _ => []
    isEndBurning := false }

/-- Environment for the sweep probe: the float power returns its base,
so the regression increment at pressure 1 is exactly `ts * ballA`. -/
def envC1 : Env :=
  { grainTypes := fun _ => behC1
    pow := fun x _ => x
    isnan := fun _ => false
    getExitPressure := fun _ _ _ => 0
    nozzleGeometryErrors := fun _ => []
    piV := 3 }

/-- The grain instance of the sweep probe. -/
def grainC1 : Grain := ⟨"tubeC1", []⟩

/-- A burn context with thrust burnout threshold 25 percent. -/
def testCtx : BurnCtx := ⟨0, 1 / 100, 25, 1, 1, 1, 0⟩

/-- A loop state whose last force sample (1) is exactly 25 percent of
the force channel's running maximum (4). -/
def testSt : LoopState :=
  ⟨⟨[0, 1], [0, 0], [0, 0], [4, 1], [[1], [1]], [[0], [0]], [[0], [0]], [], false⟩, [0]⟩

/-- The literal result of the `posEnv` run on `motorP` cancelled at the
first callback invocation. -/
def cancelResLit : SimulationResult :=
  ⟨[0, 1, 2], [0, 4 / 3, 4 / 3], [0, 1, 1], [0, 3 / 4, 3 / 4], [[1], [1], [1]],
    [[0], [0], [0]], [[0], [0], [0]], [portWarnAlert], false⟩

/-- The literal result of the immediate-burnout `zeroEnv` run on
`testMotor`. -/
def burnoutResLit : SimulationResult :=
  ⟨[0, 1], [0, 4 / 3], [0, 0], [0, 0], [[1], [1]], [[0], [0]], [[0], [0]], [], true⟩

/-- The grain contract assumed by the mass-monotonicity claim: volume
does not increase with regression and is nonnegative. -/
def volContract (env : Env) (g : Grain) : Prop :=
  (∀ r s : ℚ, r ≤ s →
    (beh env g).getVolumeAtRegression g.props s ≤ (beh env g).getVolumeAtRegression g.props r) ∧
  (∀ r : ℚ, 0 ≤ (beh env g).getVolumeAtRegression g.props r)

/-- The per-grain invariant tying a grain and its current regression to
the grain's entry in the last recorded mass row: the entry is
nonnegative, and for a grain that still has web left it dominates the
grain's current mass. -/
def massP (env : Env) (burnoutWebThres density : ℚ) (p : Grain × ℚ) (mL : ℚ) : Prop :=
  0 ≤ mL ∧
  ((beh env p.1).getWebLeft p.1.props p.2 > burnoutWebThres →
    (beh env p.1).getVolumeAtRegression p.1.props p.2 * density ≤ mL)

/-- All seven channels of a result hold exactly `n` samples. -/
def chanLen (res : SimulationResult) (n : ℕ) : Prop :=
  res.time.length = n ∧ res.kn.length = n ∧ res.pressure.length = n ∧
  res.force.length = n ∧ res.mass.length = n ∧ res.massFlow.length = n ∧
  res.massFlux.length = n

/-- The six non-time channels hold as many samples as the time channel. -/
def lenEq (res : SimulationResult) : Prop :=
  res.kn.length = res.time.length ∧ res.pressure.length = res.time.length ∧
  res.force.length = res.time.length ∧ res.mass.length = res.time.length ∧
  res.massFlow.length = res.time.length ∧ res.massFlux.length = res.time.length

/-- The loop-state invariant of the mass-monotonicity proof: the
regression vector tracks the grain list, the mass channel is nonempty,
and its last row satisfies `massP` against the current regressions. -/
def massInv (env : Env) (m : Motor) (c : BurnCtx) (st : LoopState) : Prop :=
  st.regs.length = m.grains.length ∧
  st.res.mass ≠ [] ∧
  List.Forall₂ (massP env c.burnoutWebThres c.density) (m.grains.zip st.regs)
    (st.res.mass.getLastD [])

/-! Support lemmas. -/

/-- Summing `f a * (0/1 indicator of p a)` over a list equals summing
`f` over the sublist where `p` holds. -/
lemma sum_mul_indicator_eq_sum_filter {α : Type} (p : α → Bool) (f : α → ℚ) :
    ∀ l : List α,
      (l.map (fun a => f a * (if p a then 1 else 0))).sum = ((l.filter p).map f).sum := by
  intro l
  induction l with
  | nil => rfl
  | cons a l ih =>
    rw [List.map_cons, List.sum_cons, ih, List.filter_cons]
    by_cases h : p a
    · rw [if_pos h, if_pos h, List.map_cons, List.sum_cons, mul_one]
    · rw [if_neg h, if_neg h, mul_zero, zero_add]

/-- Rebuilding every grain from its tag and properties is the
identity. -/
lemma applyDict_getDict (m : Motor) : applyDict (getDict m) = m := by
  cases m with
  | mk gs prop nz cfg =>
    simp only [getDict, applyDict, List.map_map]
    congr 1
    induction gs with
    | nil => rfl
    | cons g gs ih => simp_all

/-- The NaN / negative clamp of `calcForce` returns a nonnegative
value. -/
lemma clamp_nonneg (env : Env) (f : ℚ) :
    0 ≤ if env.isnan f || decide (f < 0) then 0 else f := by
  by_cases hb : (env.isnan f || decide (f < 0)) = true
  · simp [hb]
  · simp only [Bool.not_eq_true] at hb
    have h2 := (Bool.or_eq_false_iff.mp hb).2
    simp only [hb, Bool.false_eq_true, if_false]
    exact le_of_not_lt (of_decide_eq_false h2)

/-! Claims. -/

/-- Claim C1 (code bug evaluation): in the regression sweep, a burning
grain's recorded mass is its volume at the pre-increment regression
times density, not at the post-increment regression as the claim (and
the code's own inline comment) state.  Concretely, for a single grain
with volume `2 - r`, density 1, timestep 1, `a = 1`, previous pressure
1 and previous mass 2, the sweep applies a regression increment of 1
(so the updated regression is 1 and the volume there is 1) yet records
mass 2, the volume at regression 0. -/
theorem claim_C1 :
    (burnSweep envC1 1 1 1 0 1 1 [grainC1] [0] [2] 0).mass = [2] ∧
    (burnSweep envC1 1 1 1 0 1 1 [grainC1] [0] [2] 0).regs = [1] ∧
    (beh envC1 grainC1).getVolumeAtRegression grainC1.props 1 * 1 = 1 ∧
    (2 : ℚ) ≠ 1 := by
  refine ⟨?_, ?_, ?_, by norm_num⟩
  · norm_num [burnSweep, beh, envC1, behC1, grainC1]
  · norm_num [burnSweep, beh, envC1, behC1, grainC1]
  · norm_num [beh, envC1, behC1, grainC1]

/-- Claim C2: the loop of `simLoop` continues for another step exactly
when the last force sample strictly exceeds `burnoutThrustThres / 100`
times the force channel's running maximum (the code's
`burnoutThrustThres * 0.01 * getMax` form equals the spec's percentage
form), and a state whose last force sample is exactly that fraction of
the running maximum terminates at that sample with the finalized
result. -/
theorem claim_C2 (env : Env) (m : Motor) (c : BurnCtx) (cb : Option (ℕ → ℚ → Bool))
    (fuel cnt : ℕ) (st : LoopState) :
    (burnGuard c st.res ↔
      st.res.force.getLastD 0 > c.burnoutThrustThres / 100 * chanMax st.res.force) ∧
    (burnGuard c st.res →
      simLoop env m c cb (fuel + 1) cnt st = loopStepResult env m c cb fuel cnt st) ∧
    (¬ burnGuard c st.res →
      simLoop env m c cb (fuel + 1) cnt st = .ok (finalize m st.res)) ∧
    (st.res.force.getLastD 0 = c.burnoutThrustThres / 100 * chanMax st.res.force →
      simLoop env m c cb (fuel + 1) cnt st = .ok (finalize m st.res)) := by
  have he : c.burnoutThrustThres * 0.01 * chanMax st.res.force =
      c.burnoutThrustThres / 100 * chanMax st.res.force := by
    rw [show (0.01 : ℚ) = 1 / 100 by norm_num]
    ring
  refine ⟨?_, ?_, ?_, ?_⟩
  · unfold burnGuard
    rw [he]
  · intro h
    rw [simLoop, if_pos h]
    rfl
  · intro h
    rw [simLoop, if_neg h]
  · intro h
    have hng : ¬ burnGuard c st.res := by
      unfold burnGuard
      rw [he, h]
      exact lt_irrefl _
    rw [simLoop, if_neg hng]

/-- Witness for C2 at a concrete state whose last force sample (1) is
exactly 25 percent of the running maximum (4). -/
theorem claim_C2_witness :
    simLoop zeroEnv testMotor testCtx none 1 0 testSt = .ok (finalize testMotor testSt.res) :=
  (claim_C2 zeroEnv testMotor testCtx none 0 0 testSt).2.2.2
    (by norm_num [testSt, testCtx, chanMax])

/-- Counterexample to claim C3 as stated: a motor with an empty grain
list and no propellant yields two ERROR alerts, not one. -/
theorem claim_C3_counterexample :
    motorNoProp.grains = [] ∧
    (alertsByLevel (runSimulation zeroEnv motorNoProp none 1).resD.alerts .ERROR).length = 2 ∧
    (runSimulation zeroEnv motorNoProp none 1).resD.success = false := by
  refine ⟨rfl, by decide, by decide⟩

/-- Claim C3 (amended): for a motor with an empty grain list, a
propellant set and a nozzle with no geometry errors, `runSimulation`
returns the rejected result: success false, all channels empty, and the
alert list is exactly the one ERROR alert located at Motor. -/
theorem claim_C3 (env : Env) (m : Motor) (cb : Option (ℕ → ℚ → Bool)) (fuel : ℕ)
    (hg : m.grains = []) (hp : m.propellant.isSome = true)
    (hn : env.nozzleGeometryErrors m.nozzle = []) :
    runSimulation env m cb fuel = .ok (rejectedResult env m) ∧
    (rejectedResult env m).success = false ∧
    (rejectedResult env m).time = [] ∧ (rejectedResult env m).kn = [] ∧
    (rejectedResult env m).pressure = [] ∧ (rejectedResult env m).force = [] ∧
    (rejectedResult env m).mass = [] ∧ (rejectedResult env m).massFlow = [] ∧
    (rejectedResult env m).massFlux = [] ∧
    (rejectedResult env m).alerts = [noGrainAlert] ∧
    noGrainAlert.level = .ERROR ∧ noGrainAlert.location = "Motor" := by
  have hva : validationAlerts env m = [noGrainAlert] := by
    unfold validationAlerts
    rcases Option.isSome_iff_exists.mp hp with ⟨p, hp'⟩
    rw [hg, hn, hp']
    simp
  have hval : 0 < (alertsByLevel (validationAlerts env m) .ERROR).length := by
    rw [hva]
    simp [alertsByLevel, noGrainAlert]
  refine ⟨?_, rfl, rfl, rfl, rfl, rfl, rfl, rfl, rfl, hva, rfl, rfl⟩
  unfold runSimulation
  rw [if_pos hval]

/-- Witness for C3 at a concrete grainless motor with a propellant. -/
theorem claim_C3_witness :
    runSimulation zeroEnv motorE none 0 = .ok (rejectedResult zeroEnv motorE) ∧
    (rejectedResult zeroEnv motorE).success = false ∧
    (rejectedResult zeroEnv motorE).time = [] ∧ (rejectedResult zeroEnv motorE).kn = [] ∧
    (rejectedResult zeroEnv motorE).pressure = [] ∧ (rejectedResult zeroEnv motorE).force = [] ∧
    (rejectedResult zeroEnv motorE).mass = [] ∧ (rejectedResult zeroEnv motorE).massFlow = [] ∧
    (rejectedResult zeroEnv motorE).massFlux = [] ∧
    (rejectedResult zeroEnv motorE).alerts = [noGrainAlert] ∧
    noGrainAlert.level = .ERROR ∧ noGrainAlert.location = "Motor" :=
  claim_C3 zeroEnv motorE none 0 rfl rfl rfl

/-- Claim C5: `calcKN` is the spec's filtered surface-area sum over the
throat area, and `calcIdealPressure` is
`(KN · density · a / D)^(1/(1-n))` with the spec's normalization term
`D`, the computed KN being replaced by the override when one is
supplied. -/
theorem claim_C5 (env : Env) (m : Motor) (prop : Propellant)
    (hp : m.propellant = some prop) (r : List ℚ) (knOverride burnoutWebThres : ℚ) :
    calcKN env m r burnoutWebThres = specKN env m r burnoutWebThres ∧
    calcIdealPressure env m r none burnoutWebThres =
      env.pow (calcKN env m r burnoutWebThres * prop.density * prop.a / specD env prop)
        (1 / (1 - prop.n)) ∧
    calcIdealPressure env m r (some knOverride) burnoutWebThres =
      env.pow (knOverride * prop.density * prop.a / specD env prop) (1 / (1 - prop.n)) := by
  refine ⟨?_, ?_, ?_⟩
  · unfold calcKN specKN
    rw [sum_mul_indicator_eq_sum_filter]
  · simp only [calcIdealPressure, hp, specD]
    norm_num
  · simp only [calcIdealPressure, hp, specD]
    norm_num

/-- Witness for C5 at a concrete one-grain motor, with KN override 7. -/
theorem claim_C5_witness :
    calcKN zeroEnv testMotor [0] (1 / 100) = specKN zeroEnv testMotor [0] (1 / 100) ∧
    calcIdealPressure zeroEnv testMotor [0] none (1 / 100) =
      zeroEnv.pow (calcKN zeroEnv testMotor [0] (1 / 100) * testProp.density * testProp.a /
        specD zeroEnv testProp) (1 / (1 - testProp.n)) ∧
    calcIdealPressure zeroEnv testMotor [0] (some 7) (1 / 100) =
      zeroEnv.pow (7 * testProp.density * testProp.a / specD zeroEnv testProp)
        (1 / (1 - testProp.n)) :=
  claim_C5 zeroEnv testMotor testProp rfl [0] 7 (1 / 100)

/-- Claim C6: `calcForce` returns exactly 0 whenever the resolved
chamber pressure is exactly zero, and its value is never negative (the
NaN / negative clamp replaces any such intermediate by 0). -/
theorem claim_C6 (env : Env) (m : Motor) (r : List ℚ) (casePressure : Option ℚ)
    (ambientPressure burnoutWebThres : ℚ) :
    (resolveChamberPressure env m r casePressure burnoutWebThres = 0 →
      calcForce env m r casePressure ambientPressure burnoutWebThres = 0) ∧
    0 ≤ calcForce env m r casePressure ambientPressure burnoutWebThres := by
  unfold calcForce
  cases m.propellant with
  | none => exact ⟨fun _ => rfl, le_rfl⟩
  | some prop =>
    by_cases h0 : resolveChamberPressure env m r casePressure burnoutWebThres = 0
    · constructor
      · intro _
        simp only [h0, if_pos]
      · simp only [h0, if_pos]
        norm_num
    · constructor
      · intro h
        exact absurd h h0
      · simp only [if_neg h0]
        exact clamp_nonneg env _

/-- Witness for C6 at case pressure exactly zero. -/
theorem claim_C6_witness :
    calcForce zeroEnv testMotor [0] (some 0) 0 (1 / 100) = 0 ∧
    0 ≤ calcForce zeroEnv testMotor [0] (some 0) 0 (1 / 100) :=
  ⟨(claim_C6 zeroEnv testMotor [0] (some 0) 0 (1 / 100)).1 (by decide),
    (claim_C6 zeroEnv testMotor [0] (some 0) 0 (1 / 100)).2⟩

/-- Claim C7: serializing a motor with `getDict` and reconstructing it
with `applyDict` yields a motor that serializes to an equal record and
produces the identical simulation outcome for the same inputs. -/
theorem claim_C7 (env : Env) (m : Motor) (cb : Option (ℕ → ℚ → Bool)) (fuel : ℕ) :
    getDict (applyDict (getDict m)) = getDict m ∧
    runSimulation env (applyDict (getDict m)) cb fuel = runSimulation env m cb fuel := by
  rw [applyDict_getDict]
  exact ⟨rfl, rfl⟩

/-- Claim C10: on a motor with an empty grain list, `runSimulation`
returns the rejected result from the validation phase and in particular
never reaches the aft-grain port access, modelled by `SimOutcome.fault`. -/
theorem claim_C10 (env : Env) (m : Motor) (cb : Option (ℕ → ℚ → Bool)) (fuel : ℕ)
    (hg : m.grains = []) :
    runSimulation env m cb fuel = .ok (rejectedResult env m) ∧
    runSimulation env m cb fuel ≠ .fault := by
  have hval : 0 < (alertsByLevel (validationAlerts env m) .ERROR).length := by
    unfold validationAlerts
    rw [hg]
    simp [alertsByLevel, noGrainAlert, List.filter_append]
  constructor
  · unfold runSimulation
    rw [if_pos hval]
  · unfold runSimulation
    rw [if_pos hval]
    simp

/-- Witness for C10 at a concrete grainless motor. -/
theorem claim_C10_witness :
    runSimulation zeroEnv motorNoProp none 0 = .ok (rejectedResult zeroEnv motorNoProp) ∧
    runSimulation zeroEnv motorNoProp none 0 ≠ .fault :=
  claim_C10 zeroEnv motorNoProp none 0 rfl

/-! Evaluation of the two concrete runs used by the remaining
witnesses. -/

/-- The `zeroEnv` run on `testMotor` burns out immediately. -/
lemma zeroRun_eval : runSimulation zeroEnv testMotor none 3 = .ok burnoutResLit := by
  norm_num [runSimulation, burnoutResLit, validationAlerts, alertsByLevel, mkCtx, zeroRegs,
    initialMassRow, seededResult, portWarned, burnSweep, stepOnce, progressOf, burnGuard,
    simLoop, finalize, calcKN, calcIdealPressure, calcForce, resolveChamberPressure, chanMax,
    listMax, circleArea, getThroatArea, getExitArea, beh, zeroEnv, zeroBehavior, testMotor,
    testProp, testNozzle, testConfig, List.getLastD]

/-- The `posEnv` run on `motorP` with an always-true callback is
cancelled after one step with the port/throat WARNING on board. -/
lemma posRun_eval :
    runSimulation posEnv motorP (some (fun _ _ => true)) 5 = .ok cancelResLit := by
  norm_num [runSimulation, cancelResLit, validationAlerts, alertsByLevel, mkCtx, zeroRegs,
    initialMassRow, seededResult, portWarned, burnSweep, stepOnce, progressOf, burnGuard,
    simLoop, finalize, calcKN, calcIdealPressure, calcForce, resolveChamberPressure, chanMax,
    listMax, circleArea, getThroatArea, getExitArea, beh, posEnv, posBehavior, motorP,
    testProp, testNozzle, testConfig, portWarnAlert, List.getLastD]

/-! Loop invariants. -/

/-- One loop body appends exactly one sample to each of the seven
channels and leaves the alert list and the success flag unchanged. -/
lemma stepOnce_spec (env : Env) (m : Motor) (c : BurnCtx) (st : LoopState) :
    (stepOnce env m c st).res.time.length = st.res.time.length + 1 ∧
    (stepOnce env m c st).res.kn.length = st.res.kn.length + 1 ∧
    (stepOnce env m c st).res.pressure.length = st.res.pressure.length + 1 ∧
    (stepOnce env m c st).res.force.length = st.res.force.length + 1 ∧
    (stepOnce env m c st).res.mass.length = st.res.mass.length + 1 ∧
    (stepOnce env m c st).res.massFlow.length = st.res.massFlow.length + 1 ∧
    (stepOnce env m c st).res.massFlux.length = st.res.massFlux.length + 1 ∧
    (stepOnce env m c st).res.alerts = st.res.alerts ∧
    (stepOnce env m c st).res.success = st.res.success := by
  simp [stepOnce]

/-- Finalization only sets `success` and appends warnings: every
channel is untouched. -/
lemma finalize_spec (m : Motor) (res : SimulationResult) :
    (finalize m res).time = res.time ∧ (finalize m res).kn = res.kn ∧
    (finalize m res).pressure = res.pressure ∧ (finalize m res).force = res.force ∧
    (finalize m res).mass = res.mass ∧ (finalize m res).massFlow = res.massFlow ∧
    (finalize m res).massFlux = res.massFlux ∧ (finalize m res).success = true :=
  ⟨rfl, rfl, rfl, rfl, rfl, rfl, rfl, rfl⟩

/-- The port/throat check either leaves the result unchanged or appends
exactly the port/throat WARNING. -/
lemma portWarned_eq (env : Env) (m : Motor) (aft : Grain) (res : SimulationResult) :
    portWarned env m aft res = res ∨
    portWarned env m aft res = { res with alerts := res.alerts ++ [portWarnAlert] } := by
  unfold portWarned
  cases (beh env aft).getPortArea aft.props 0 with
  | none => exact Or.inl rfl
  | some ap =>
    by_cases h : ap / circleArea env.piV m.nozzle.throat < m.config.minPortThroat
    · exact Or.inr (if_pos h)
    · exact Or.inl (if_neg h)

/-- The port/throat check only possibly appends an alert: every channel
and the success flag are untouched. -/
lemma portWarned_spec (env : Env) (m : Motor) (aft : Grain) (res : SimulationResult) :
    (portWarned env m aft res).time = res.time ∧ (portWarned env m aft res).kn = res.kn ∧
    (portWarned env m aft res).pressure = res.pressure ∧
    (portWarned env m aft res).force = res.force ∧
    (portWarned env m aft res).mass = res.mass ∧
    (portWarned env m aft res).massFlow = res.massFlow ∧
    (portWarned env m aft res).massFlux = res.massFlux ∧
    (portWarned env m aft res).success = res.success := by
  rcases portWarned_eq env m aft res with h | h <;> rw [h] <;>
    exact ⟨rfl, rfl, rfl, rfl, rfl, rfl, rfl, rfl⟩

/-- The port/throat check adds no ERROR-level alert. -/
lemma portWarned_errors (env : Env) (m : Motor) (aft : Grain) (res : SimulationResult) :
    alertsByLevel (portWarned env m aft res).alerts .ERROR =
      alertsByLevel res.alerts .ERROR := by
  rcases portWarned_eq env m aft res with h | h <;> rw [h]
  simp [alertsByLevel, portWarnAlert, List.filter_append]

/-- Along the loop, equal channel lengths are preserved into any
returned result. -/
lemma simLoop_lenEq (env : Env) (m : Motor) (c : BurnCtx) (cb : Option (ℕ → ℚ → Bool)) :
    ∀ fuel cnt st res, simLoop env m c cb fuel cnt st = .ok res → lenEq st.res → lenEq res := by
  intro fuel
  induction fuel with
  | zero =>
    intro cnt st res h
    exact absurd h (by simp [simLoop])
  | succ n ih =>
    intro cnt st res h hinv
    simp only [simLoop] at h
    by_cases hg : burnGuard c st.res
    · rw [if_pos hg] at h
      have hstep : lenEq (stepOnce env m c st).res := by
        obtain ⟨h1, h2, h3, h4, h5, h6, h7, _, _⟩ := stepOnce_spec env m c st
        unfold lenEq at hinv ⊢
        omega
      cases cb with
      | none => exact ih _ _ _ h hstep
      | some f =>
        replace h : (if f cnt (1 - progressOf env m (stepOnce env m c st)) = true then
            SimOutcome.ok (stepOnce env m c st).res
          else simLoop env m c (some f) n (cnt + 1) (stepOnce env m c st)) = .ok res := h
        by_cases hcb : f cnt (1 - progressOf env m (stepOnce env m c st)) = true
        · rw [if_pos hcb] at h
          injection h with h
          rw [← h]
          exact hstep
        · rw [if_neg hcb] at h
          exact ih _ _ _ h hstep
    · rw [if_neg hg] at h
      injection h with h
      rw [← h]
      obtain ⟨h1, h2, h3, h4, h5, h6, h7, _⟩ := finalize_spec m st.res
      unfold lenEq at hinv ⊢
      rw [h1, h2, h3, h4, h5, h6, h7]
      exact hinv

/-- Claim C9 (implicit): whenever `runSimulation` returns a result —
after validation rejection, after cancellation, or after natural
burnout — all seven channels hold the same number of samples. -/
theorem claim_C9 (env : Env) (m : Motor) (cb : Option (ℕ → ℚ → Bool)) (fuel : ℕ)
    (res : SimulationResult) (hrun : runSimulation env m cb fuel = .ok res) :
    lenEq res := by
  unfold runSimulation at hrun
  by_cases hv : 0 < (alertsByLevel (validationAlerts env m) .ERROR).length
  · rw [if_pos hv] at hrun
    injection hrun with hrun
    rw [← hrun]
    exact ⟨rfl, rfl, rfl, rfl, rfl, rfl⟩
  · rw [if_neg hv] at hrun
    cases hpm : m.propellant with
    | none =>
      rw [hpm] at hrun
      exact SimOutcome.noConfusion hrun
    | some prop =>
      rw [hpm] at hrun
      cases hgl : m.grains.getLast? with
      | none =>
        rw [hgl] at hrun
        exact SimOutcome.noConfusion hrun
      | some aft =>
        rw [hgl] at hrun
        refine simLoop_lenEq env m (mkCtx m prop) cb fuel 0 _ res hrun ?_
        obtain ⟨p1, p2, p3, p4, p5, p6, p7, _⟩ :=
          portWarned_spec env m aft (seededResult env m prop)
        unfold lenEq
        rw [p1, p2, p3, p4, p5, p6, p7]
        exact ⟨rfl, rfl, rfl, rfl, rfl, rfl⟩

/-- Witness for C9 on the concrete immediate-burnout run. -/
theorem claim_C9_witness : lenEq burnoutResLit :=
  claim_C9 zeroEnv testMotor none 3 burnoutResLit zeroRun_eval

/-- Along the loop with a callback that is false strictly before its
`k`-th invocation and true at it, a returned result that is not a
natural burnout was cancelled exactly at the `k`-th callback boundary:
its channels hold `k + 2` samples and it carries no ERROR alert. -/
lemma simLoop_cancel_count (env : Env) (m : Motor) (c : BurnCtx) (k : ℕ)
    (cb : ℕ → ℚ → Bool)
    (hf : ∀ j p, j + 1 < k → cb j p = false) (ht : ∀ p, cb (k - 1) p = true) :
    ∀ fuel cnt st res, simLoop env m c (some cb) fuel cnt st = .ok res →
      res.success = false → st.res.success = false → cnt < k →
      chanLen st.res (cnt + 2) →
      alertsByLevel st.res.alerts .ERROR = [] →
      chanLen res (k + 2) ∧ alertsByLevel res.alerts .ERROR = [] := by
  intro fuel
  induction fuel with
  | zero =>
    intro cnt st res h
    exact absurd h (by simp [simLoop])
  | succ n ih =>
    intro cnt st res h hsucc hstsucc hcnt hlen herr
    simp only [simLoop] at h
    by_cases hg : burnGuard c st.res
    · rw [if_pos hg] at h
      replace h : (if cb cnt (1 - progressOf env m (stepOnce env m c st)) = true then
          SimOutcome.ok (stepOnce env m c st).res
        else simLoop env m c (some cb) n (cnt + 1) (stepOnce env m c st)) = .ok res := h
      have hs := stepOnce_spec env m c st
      generalize hG : stepOnce env m c st = st' at h hs
      generalize hP : (1 - progressOf env m st' : ℚ) = pv at h
      obtain ⟨h1, h2, h3, h4, h5, h6, h7, halerts, hsuc⟩ := hs
      by_cases hcb : cb cnt pv = true
      · rw [if_pos hcb] at h
        have hk : cnt + 1 = k := by
          by_contra hne
          have hlt : cnt + 1 < k := by omega
          have hfalse := hf cnt pv hlt
          rw [hfalse] at hcb
          exact Bool.false_ne_true hcb
        injection h with h
        rw [← h]
        constructor
        · obtain ⟨l1, l2, l3, l4, l5, l6, l7⟩ := hlen
          clear hf ht ih hg hcb herr hsucc hstsucc hG hP halerts hsuc h hcnt
          unfold chanLen
          omega
        · rw [halerts]
          exact herr
      · rw [if_neg hcb] at h
        have hlt : cnt + 1 < k := by
          rcases Nat.lt_or_ge (cnt + 1) k with h' | h'
          · exact h'
          · have heq : k - 1 = cnt := by omega
            have h2t := ht pv
            rw [heq] at h2t
            exact absurd h2t hcb
        refine ih (cnt + 1) st' res h hsucc ?_ hlt ?_ ?_
        · rw [hsuc]
          exact hstsucc
        · obtain ⟨l1, l2, l3, l4, l5, l6, l7⟩ := hlen
          clear hf ht ih hg hcb herr hsucc hstsucc hG hP halerts hsuc h hcnt hlt
          unfold chanLen
          omega
        · rw [halerts]
          exact herr
    · rw [if_neg hg] at h
      injection h with h
      rw [← h] at hsucc
      have := (finalize_spec m st.res).2.2.2.2.2.2.2
      rw [this] at hsucc
      exact absurd hsucc (by simp)

/-- Counterexample to claim C4 as stated: the concrete `posEnv` run on
`motorP`, cancelled at the callback's first invocation, has success
false and no ERROR alert but does carry an alert (the port/throat
WARNING), so a cancelled result does not in general carry no alert at
all. -/
theorem claim_C4_counterexample :
    (runSimulation posEnv motorP (some (fun _ _ => true)) 5).resD.success = false ∧
    alertsByLevel (runSimulation posEnv motorP (some (fun _ _ => true)) 5).resD.alerts
      .ERROR = [] ∧
    (runSimulation posEnv motorP (some (fun _ _ => true)) 5).resD.alerts ≠ [] ∧
    (runSimulation posEnv motorP (some (fun _ _ => true)) 5).resD.time.length = 1 + 2 := by
  rw [posRun_eval]
  refine ⟨rfl, by decide, by simp [SimOutcome.resD, cancelResLit], rfl⟩

/-- Claim C4 (amended): in a validated run whose callback is false
strictly before its `k`-th invocation and true at it, a returned result
with success still false is the cancellation at that boundary: every
channel holds exactly `k + 2` samples and the result carries no
ERROR-level alert (it may carry WARNINGs, e.g. the port/throat one),
distinguishing it from a rejected result, which has at least one ERROR
alert. -/
theorem claim_C4 (env : Env) (m : Motor) (k : ℕ) (hk : 0 < k) (cb : ℕ → ℚ → Bool)
    (hf : ∀ j p, j + 1 < k → cb j p = false) (ht : ∀ p, cb (k - 1) p = true)
    (fuel : ℕ) (res : SimulationResult)
    (hrun : runSimulation env m (some cb) fuel = .ok res)
    (hcancel : res.success = false)
    (hval : alertsByLevel (validationAlerts env m) .ERROR = []) :
    chanLen res (k + 2) ∧ alertsByLevel res.alerts .ERROR = [] := by
  unfold runSimulation at hrun
  rw [if_neg (by rw [hval]; simp)] at hrun
  cases hpm : m.propellant with
  | none =>
    rw [hpm] at hrun
    exact SimOutcome.noConfusion hrun
  | some prop =>
    rw [hpm] at hrun
    cases hgl : m.grains.getLast? with
    | none =>
      rw [hgl] at hrun
      exact SimOutcome.noConfusion hrun
    | some aft =>
      rw [hgl] at hrun
      obtain ⟨p1, p2, p3, p4, p5, p6, p7, psuc⟩ :=
        portWarned_spec env m aft (seededResult env m prop)
      refine simLoop_cancel_count env m (mkCtx m prop) k cb hf ht fuel 0 _ res hrun
        hcancel ?_ hk ?_ ?_
      · rw [psuc]
        rfl
      · unfold chanLen
        rw [p1, p2, p3, p4, p5, p6, p7]
        exact ⟨rfl, rfl, rfl, rfl, rfl, rfl, rfl⟩
      · rw [portWarned_errors]
        show alertsByLevel (validationAlerts env m) .ERROR = []
        exact hval

/-- Witness for C4 on the concrete cancelled run, with k = 1. -/
theorem claim_C4_witness :
    chanLen cancelResLit (1 + 2) ∧ alertsByLevel cancelResLit.alerts .ERROR = [] :=
  claim_C4 posEnv motorP 1 (by norm_num) (fun _ _ => true)
    (fun _ _ h => absurd h (by omega)) (fun _ => rfl) 5 cancelResLit posRun_eval rfl
    (by decide)

/-! Support for the mass- and regression-monotonicity claim. -/

/-- The sweep's output rows track the grain list's length. -/
lemma burnSweep_lengths (env : Env) (ts ballA ballN th d pL : ℚ) :
    ∀ (gs : List Grain) (rs ms : List ℚ) (mf : ℚ),
      (burnSweep env ts ballA ballN th d pL gs rs ms mf).regs.length = gs.length ∧
      (burnSweep env ts ballA ballN th d pL gs rs ms mf).mass.length = gs.length := by
  intro gs
  induction gs with
  | nil =>
    intro rs ms mf
    exact ⟨rfl, rfl⟩
  | cons g gs ih =>
    intro rs ms mf
    by_cases hw : (beh env g).getWebLeft g.props (rs.headD 0) > th
    · simp only [burnSweep, if_pos hw, List.length_cons]
      exact ⟨by rw [(ih _ _ _).1], by rw [(ih _ _ _).2]⟩
    · simp only [burnSweep, if_neg hw, List.length_cons]
      exact ⟨by rw [(ih _ _ _).1], by rw [(ih _ _ _).2]⟩

/-- Under nonnegative timestep, burn-rate coefficient and float power,
the sweep never decreases any grain's regression. -/
lemma burnSweep_regs_mono (env : Env) (ts ballA ballN th d pL : ℚ)
    (hts : 0 ≤ ts) (hA : 0 ≤ ballA) (hpow : ∀ x y : ℚ, 0 ≤ env.pow x y) :
    ∀ (gs : List Grain) (rs ms : List ℚ) (mf : ℚ), rs.length = gs.length →
      List.Forall₂ (· ≤ ·) rs (burnSweep env ts ballA ballN th d pL gs rs ms mf).regs := by
  intro gs
  induction gs with
  | nil =>
    intro rs ms mf hlen
    have hrs : rs = [] := by simpa using hlen
    subst hrs
    simp only [burnSweep]
    exact List.Forall₂.nil
  | cons g gs ih =>
    intro rs ms mf hlen
    cases rs with
    | nil => simp at hlen
    | cons r rs =>
      have hlen' : rs.length = gs.length := by simpa using hlen
      by_cases hw : (beh env g).getWebLeft g.props r > th
      · simp only [burnSweep, List.headD_cons, List.tail_cons, if_pos hw]
        refine List.Forall₂.cons ?_ (ih rs ms.tail _ hlen')
        exact le_add_of_nonneg_right (mul_nonneg (mul_nonneg hts hA) (hpow pL ballN))
      · simp only [burnSweep, List.headD_cons, List.tail_cons, if_neg hw]
        exact List.Forall₂.cons le_rfl (ih rs ms.tail mf hlen')

/-- Under the grain volume contract, one sweep produces a mass row that
is pointwise dominated by the previous one and re-establishes the
per-grain invariant against the updated regressions. -/
lemma burnSweep_mass_inv (env : Env) (ts ballA ballN th d pL : ℚ)
    (hts : 0 ≤ ts) (hA : 0 ≤ ballA) (hd : 0 ≤ d) (hpow : ∀ x y : ℚ, 0 ≤ env.pow x y) :
    ∀ (gs : List Grain) (rs ms : List ℚ) (mf : ℚ),
      rs.length = gs.length →
      (∀ g ∈ gs, volContract env g) →
      List.Forall₂ (massP env th d) (gs.zip rs) ms →
      List.Forall₂ (· ≤ ·) (burnSweep env ts ballA ballN th d pL gs rs ms mf).mass ms ∧
      List.Forall₂ (massP env th d)
        (gs.zip (burnSweep env ts ballA ballN th d pL gs rs ms mf).regs)
        (burnSweep env ts ballA ballN th d pL gs rs ms mf).mass := by
  intro gs
  induction gs with
  | nil =>
    intro rs ms mf _ _ hF
    rw [List.zip_nil_left] at hF
    cases hF
    simp only [burnSweep]
    exact ⟨List.Forall₂.nil, List.Forall₂.nil⟩
  | cons g gs ih =>
    intro rs ms mf hlen hvols hF
    cases rs with
    | nil => simp at hlen
    | cons r rs =>
      cases ms with
      | nil =>
        rw [List.zip_cons_cons] at hF
        exact absurd hF (by simp)
      | cons mL ms =>
        rw [List.zip_cons_cons, List.forall₂_cons] at hF
        obtain ⟨hgr, htail⟩ := hF
        have hvg : volContract env g := hvols g (List.mem_cons_self g gs)
        have hvgs : ∀ g' ∈ gs, volContract env g' :=
          fun g' h' => hvols g' (List.mem_cons_of_mem g h')
        have hlen' : rs.length = gs.length := by simpa using hlen
        by_cases hw : (beh env g).getWebLeft g.props r > th
        · have hih := ih rs ms
            (mf + (mL - (beh env g).getVolumeAtRegression g.props r * d) / ts) hlen' hvgs htail
          simp only [burnSweep, List.headD_cons, List.tail_cons, if_pos hw]
          constructor
          · exact List.Forall₂.cons (hgr.2 hw) hih.1
          · rw [List.zip_cons_cons]
            refine List.Forall₂.cons ⟨mul_nonneg (hvg.2 r) hd, fun _ => ?_⟩ hih.2
            refine mul_le_mul_of_nonneg_right
              (hvg.1 r (r + ts * ballA * env.pow pL ballN) ?_) hd
            exact le_add_of_nonneg_right (mul_nonneg (mul_nonneg hts hA) (hpow pL ballN))
        · have hih := ih rs ms mf hlen' hvgs htail
          simp only [burnSweep, List.headD_cons, List.tail_cons, if_neg hw]
          constructor
          · exact List.Forall₂.cons hgr.1 hih.1
          · rw [List.zip_cons_cons]
            exact List.Forall₂.cons ⟨le_rfl, fun hw' => absurd hw' hw⟩ hih.2

/-- Pointwise dominated rational lists have dominated sums. -/
lemma forall2_sum_le : ∀ {l₁ l₂ : List ℚ}, List.Forall₂ (· ≤ ·) l₁ l₂ → l₁.sum ≤ l₂.sum := by
  intro l₁ l₂ h
  induction h with
  | nil => exact le_rfl
  | cons hab _ ih =>
    simp only [List.sum_cons]
    exact add_le_add hab ih

/-- The last element of a list with one appended element. -/
lemma getLastD_append_singleton {α : Type} (l : List α) (x : α) :
    ∀ d, (l ++ [x]).getLastD d = x := by
  induction l with
  | nil => intro d; rfl
  | cons a l ih =>
    intro d
    rw [List.cons_append, List.getLastD_cons]
    exact ih a

/-- The last of the summed rows is the sum of the last row. -/
lemma getLast?_map_sum (l : List (List ℚ)) (hne : l ≠ []) :
    (l.map List.sum).getLast? = some (l.getLastD []).sum := by
  induction l with
  | nil => exact absurd rfl hne
  | cons a l ih =>
    cases l with
    | nil => rfl
    | cons b l' =>
      simp only [List.map_cons, List.getLast?_cons_cons, List.getLastD_cons]
      have := ih (by simp)
      simpa only [List.map_cons, List.getLastD_cons] using this

/-- Zipping a list with a mapped copy of itself satisfies a pointwise
relation that holds at every element. -/
lemma forall2_zip_map_self {P : Grain × ℚ → ℚ → Prop} (gs : List Grain)
    (f h : Grain → ℚ) (hP : ∀ g ∈ gs, P (g, f g) (h g)) :
    List.Forall₂ P (gs.zip (gs.map f)) (gs.map h) := by
  induction gs with
  | nil => exact List.Forall₂.nil
  | cons g gs ih =>
    simp only [List.map_cons, List.zip_cons_cons]
    exact List.Forall₂.cons (hP g (List.mem_cons_self g gs))
      (ih (fun g' h' => hP g' (List.mem_cons_of_mem g h')))

/-- The mass channel and the regression vector of one loop body, in
terms of the sweep. -/
lemma stepOnce_mass (env : Env) (m : Motor) (c : BurnCtx) (st : LoopState) :
    (stepOnce env m c st).res.mass = st.res.mass ++
      [(burnSweep env c.ts c.ballA c.ballN c.burnoutWebThres c.density
        (st.res.pressure.getLastD 0) m.grains st.regs (st.res.mass.getLastD []) 0).mass] ∧
    (stepOnce env m c st).regs =
      (burnSweep env c.ts c.ballA c.ballN c.burnoutWebThres c.density
        (st.res.pressure.getLastD 0) m.grains st.regs (st.res.mass.getLastD []) 0).regs :=
  ⟨rfl, rfl⟩

/-- Along the loop, the mass-row invariant yields a returned mass
channel whose row sums never increase. -/
lemma simLoop_mass (env : Env) (m : Motor) (c : BurnCtx) (cb : Option (ℕ → ℚ → Bool))
    (hts : 0 ≤ c.ts) (hA : 0 ≤ c.ballA) (hd : 0 ≤ c.density)
    (hpow : ∀ x y : ℚ, 0 ≤ env.pow x y)
    (hvols : ∀ g ∈ m.grains, volContract env g) :
    ∀ fuel cnt st res, simLoop env m c cb fuel cnt st = .ok res →
      massInv env m c st →
      List.Chain' (fun a b => b ≤ a) (st.res.mass.map List.sum) →
      List.Chain' (fun a b => b ≤ a) (res.mass.map List.sum) := by
  intro fuel
  induction fuel with
  | zero =>
    intro cnt st res h
    exact absurd h (by simp [simLoop])
  | succ n ih =>
    intro cnt st res h hinv hchain
    obtain ⟨hlen, hne, hF⟩ := hinv
    simp only [simLoop] at h
    by_cases hg : burnGuard c st.res
    · rw [if_pos hg] at h
      have hsw := burnSweep_mass_inv env c.ts c.ballA c.ballN c.burnoutWebThres c.density
        (st.res.pressure.getLastD 0) hts hA hd hpow m.grains st.regs
        (st.res.mass.getLastD []) 0 hlen hvols hF
      have hchain' :
          List.Chain' (fun a b => b ≤ a) ((stepOnce env m c st).res.mass.map List.sum) := by
        rw [(stepOnce_mass env m c st).1, List.map_append]
        rw [List.chain'_append]
        refine ⟨hchain, List.chain'_singleton _, ?_⟩
        intro x hx y hy
        rw [getLast?_map_sum st.res.mass hne] at hx
        simp only [List.map_cons, List.map_nil, List.head?_cons, Option.mem_some_iff] at hx hy
        rw [← hx, ← hy]
        exact forall2_sum_le hsw.1
      have hinv' : massInv env m c (stepOnce env m c st) := by
        refine ⟨?_, ?_, ?_⟩
        · rw [(stepOnce_mass env m c st).2]
          exact (burnSweep_lengths env c.ts c.ballA c.ballN c.burnoutWebThres c.density
            (st.res.pressure.getLastD 0) m.grains st.regs (st.res.mass.getLastD []) 0).1
        · rw [(stepOnce_mass env m c st).1]
          simp
        · rw [(stepOnce_mass env m c st).1, (stepOnce_mass env m c st).2,
            getLastD_append_singleton]
          exact hsw.2
      cases cb with
      | none => exact ih _ _ _ h hinv' hchain'
      | some f =>
        replace h : (if f cnt (1 - progressOf env m (stepOnce env m c st)) = true then
            SimOutcome.ok (stepOnce env m c st).res
          else simLoop env m c (some f) n (cnt + 1) (stepOnce env m c st)) = .ok res := h
        by_cases hcb : f cnt (1 - progressOf env m (stepOnce env m c st)) = true
        · rw [if_pos hcb] at h
          injection h with h
          rw [← h]
          exact hchain'
        · rw [if_neg hcb] at h
          exact ih _ _ _ h hinv' hchain'
    · rw [if_neg hg] at h
      injection h with h
      rw [← h]
      rw [(finalize_spec m st.res).2.2.2.2.1]
      exact hchain

/-- Claim C8: under the grain volume contract and nonnegative
propellant and config parameters, the regression sweep never decreases
any grain's regression, and in every returned result the total
propellant mass — the sum over each per-grain mass row — is
non-increasing across consecutive samples. -/
theorem claim_C8 (env : Env) (m : Motor) (cb : Option (ℕ → ℚ → Bool)) (fuel : ℕ)
    (res : SimulationResult) (prop : Propellant) (hp : m.propellant = some prop)
    (hpow : ∀ x y : ℚ, 0 ≤ env.pow x y)
    (hvols : ∀ g ∈ m.grains, volContract env g)
    (hts : 0 ≤ m.config.timestep) (hA : 0 ≤ prop.a) (hd : 0 ≤ prop.density)
    (hrun : runSimulation env m cb fuel = .ok res) :
    (∀ (ts ballA ballN th d pL : ℚ) (rs ms : List ℚ) (mf : ℚ), 0 ≤ ts → 0 ≤ ballA →
      rs.length = m.grains.length →
      List.Forall₂ (· ≤ ·) rs (burnSweep env ts ballA ballN th d pL m.grains rs ms mf).regs) ∧
    List.Chain' (fun a b => b ≤ a) (res.mass.map List.sum) := by
  constructor
  · intro ts ballA ballN th d pL rs ms mf hts' hA' hlen
    exact burnSweep_regs_mono env ts ballA ballN th d pL hts' hA' hpow m.grains rs ms mf hlen
  · unfold runSimulation at hrun
    by_cases hv : 0 < (alertsByLevel (validationAlerts env m) .ERROR).length
    · rw [if_pos hv] at hrun
      injection hrun with hrun
      rw [← hrun]
      simp [rejectedResult]
    · rw [if_neg hv] at hrun
      rw [hp] at hrun
      cases hgl : m.grains.getLast? with
      | none =>
        rw [hgl] at hrun
        exact SimOutcome.noConfusion hrun
      | some aft =>
        rw [hgl] at hrun
        refine simLoop_mass env m (mkCtx m prop) cb hts hA hd hpow hvols fuel 0 _ res
          hrun ⟨?_, ?_, ?_⟩ ?_
        · simp [zeroRegs]
        · rw [(portWarned_spec env m aft (seededResult env m prop)).2.2.2.2.1]
          simp [seededResult]
        · rw [(portWarned_spec env m aft (seededResult env m prop)).2.2.2.2.1]
          show List.Forall₂ _ (m.grains.zip (zeroRegs m))
            ((seededResult env m prop).mass.getLastD [])
          have hm : (seededResult env m prop).mass.getLastD [] =
              initialMassRow env m prop.density := rfl
          rw [hm]
          unfold zeroRegs initialMassRow
          refine forall2_zip_map_self m.grains _ _ (fun g hgm => ?_)
          exact ⟨mul_nonneg ((hvols g hgm).2 0) hd, fun _ => le_rfl⟩
        · rw [(portWarned_spec env m aft (seededResult env m prop)).2.2.2.2.1]
          have hm : (seededResult env m prop).mass =
              [initialMassRow env m prop.density, initialMassRow env m prop.density] := rfl
          rw [hm]
          simp only [List.map_cons, List.map_nil]
          exact List.chain'_pair.mpr le_rfl

/-- Witness for C8 on the concrete immediate-burnout run. -/
theorem claim_C8_witness :
    List.Chain' (fun a b => b ≤ a) (burnoutResLit.mass.map List.sum) :=
  (claim_C8 zeroEnv testMotor none 3 burnoutResLit testProp rfl
    (fun _ _ => le_rfl)
    (fun _ _ => ⟨fun _ _ _ => le_rfl, fun _ => zero_le_one⟩)
    (by norm_num [testMotor, testConfig]) (by norm_num [testProp])
    (by norm_num [testProp]) zeroRun_eval).2

end OpenMotor
